import Mathlib

/-
Verification of the JSON-file-backed user store (`storage` package:
`NewJSONStore`, `load`, `save`, `GetAll`, `GetByID`, `Create`, `Update`,
`Delete`) against its natural-language specification.

Modelling choices:
* `models.User` becomes the structure `User`; `time.Time` timestamps are
  opaque values modelled as `Nat` (the store never inspects them).
* The Go map `map[string]models.User` is modelled as a `List User` in which
  each entry is keyed by its own `id` field (every write in the source uses
  `s.users[user.ID] = user`, so key = record id always holds).  The predicate
  `UniqueIds` expresses that the list represents a map (a Go map cannot hold
  two entries with the same key).
* The snapshot file is `Disk := Option FileData`: `none` models a missing
  file (`os.IsNotExist`), `FileData.emptyFile` a zero-byte file,
  `FileData.valid us` a file whose contents unmarshal to the record list
  `us`, and `FileData.malformed` non-empty content that fails `json.Unmarshal`.
* `os.WriteFile` may fail; each mutating operation takes a `writeOk : Bool`
  chosen by the environment.  On failure the file is unchanged and the
  operation reports a persistence error.
-/

namespace UserStore

/-- A user record (`models.User`): id, name, email and two timestamps. -/
structure User where
  id : String
  name : String
  email : String
  createdAt : Nat
  updatedAt : Nat
deriving DecidableEq, Repr

/-- The store state (`storage.JSONStore`): the in-memory index.  The file
path field is carried implicitly by pairing the store with a `Disk` value;
the mutex only serializes operations and has no sequential content. -/
structure JSONStore where
  users : List User
deriving DecidableEq, Repr

/-- Contents of the snapshot file when it exists. -/
inductive FileData where
  | emptyFile
  | valid (users : List User)
  | malformed
deriving DecidableEq, Repr

/-- The file system cell holding the snapshot: `none` = file does not exist. -/
abbrev Disk := Option FileData

/-- The error values surfaced by the store (`ErrUserNotFound`,
`ErrUserExists`, and any error returned by the disk write). -/
inductive StoreError where
  | notFound
  | alreadyExists
  | persistenceError
deriving DecidableEq, Repr

/-- Go map lookup `user, exists := s.users[id]` (key = record id). -/
def idxLookup (idx : List User) (id : String) : Option User :=
  idx.find? (fun u => u.id == id)

/-- Go map membership test `_, exists := s.users[id]`. -/
def hasId (idx : List User) (id : String) : Bool :=
  idx.any (fun u => u.id == id)

/-- Go map assignment `s.users[user.ID] = user`: replace the entry with the
same key if present, otherwise add the entry. -/
def idxInsert (idx : List User) (u : User) : List User :=
  if hasId idx u.id then
    idx.map (fun v => if v.id == u.id then u else v)
  else
    idx ++ [u]

/-- Go map deletion `delete(s.users, id)`. -/
def idxErase (idx : List User) (id : String) : List User :=
  idx.filter (fun v => v.id != id)

/-- `JSONStore.save`: serialize the whole index and overwrite the file.
`writeOk` models whether `os.WriteFile` succeeds; marshalling of a record
list cannot fail. -/
def save (idx : List User) (writeOk : Bool) : Except StoreError Disk :=
  if writeOk then
    Except.ok (some (FileData.valid idx))
  else
    Except.error StoreError.persistenceError

/-- Result of a mutating operation: the returned error (if any), the store
state after the call, and the file state after the call. -/
structure OpResult where
  err : Option StoreError
  store : JSONStore
  disk : Disk
deriving DecidableEq, Repr

/-- `JSONStore.GetAll`: list all users from the in-memory index. -/
def JSONStore.GetAll (s : JSONStore) : List User :=
  s.users

/-- `JSONStore.GetByID`: look up a user in the in-memory index. -/
def JSONStore.GetByID (s : JSONStore) (id : String) : Except StoreError User :=
  match idxLookup s.users id with
  | some u => Except.ok u
  | none => Except.error StoreError.notFound

/-- `JSONStore.Create`: scan all entries for an equal email, reporting
`ErrUserExists` on a hit; otherwise assign `s.users[user.ID] = user` and
call `save`.  On a failed save the method returns the error with the
in-memory assignment still in place. -/
def JSONStore.Create (s : JSONStore) (disk : Disk) (user : User)
    (writeOk : Bool) : OpResult :=
  if s.users.any (fun existingUser => existingUser.email == user.email) then
    ⟨some StoreError.alreadyExists, s, disk⟩
  else
    let s' : JSONStore := ⟨idxInsert s.users user⟩
    match save s'.users writeOk with
    | Except.ok disk' => ⟨none, s', disk'⟩
    | Except.error e => ⟨some e, s', disk⟩

/-- `JSONStore.Update`: report `ErrUserNotFound` when the id is absent;
then scan for an equal email on a different key, reporting `ErrUserExists`;
otherwise assign and `save` exactly as `Create` does. -/
def JSONStore.Update (s : JSONStore) (disk : Disk) (user : User)
    (writeOk : Bool) : OpResult :=
  if ¬ hasId s.users user.id then
    ⟨some StoreError.notFound, s, disk⟩
  else if s.users.any (fun v => v.email == user.email && v.id != user.id) then
    ⟨some StoreError.alreadyExists, s, disk⟩
  else
    let s' : JSONStore := ⟨idxInsert s.users user⟩
    match save s'.users writeOk with
    | Except.ok disk' => ⟨none, s', disk'⟩
    | Except.error e => ⟨some e, s', disk⟩

/-- `JSONStore.Delete`: report `ErrUserNotFound` when the id is absent;
otherwise delete the key and `save`. -/
def JSONStore.Delete (s : JSONStore) (disk : Disk) (id : String)
    (writeOk : Bool) : OpResult :=
  if ¬ hasId s.users id then
    ⟨some StoreError.notFound, s, disk⟩
  else
    let s' : JSONStore := ⟨idxErase s.users id⟩
    match save s'.users writeOk with
    | Except.ok disk' => ⟨none, s', disk'⟩
    | Except.error e => ⟨some e, s', disk⟩

/-- The map built by `load`: `for _, user := range users { s.users[user.ID] = user }`. -/
def buildIndex (users : List User) : List User :=
  users.foldl (fun idx u => idxInsert idx u) []

/-- Load-time failures: `os.ReadFile` on a missing file, or `json.Unmarshal`
rejecting the content. -/
inductive LoadError where
  | fileMissing
  | parseFailed
deriving DecidableEq, Repr

/-- `JSONStore.load`: read the file; zero bytes is accepted as an empty
index; otherwise the content must unmarshal to a list of records, which is
folded into the map keyed by id. -/
def load (disk : Disk) : Except LoadError (List User) :=
  match disk with
  | none => Except.error LoadError.fileMissing
  | some FileData.emptyFile => Except.ok []
  | some FileData.malformed => Except.error LoadError.parseFailed
  | some (FileData.valid users) => Except.ok (buildIndex users)

/-- `NewJSONStore`: start from an empty index and `load`; a missing file is
tolerated (`os.IsNotExist`), any other load failure aborts construction. -/
def NewJSONStore (disk : Disk) : Option JSONStore :=
  match load disk with
  | Except.ok idx => some ⟨idx⟩
  | Except.error LoadError.fileMissing => some ⟨[]⟩
  | Except.error LoadError.parseFailed => none

/-- A mutating operation together with whether its disk write succeeds. -/
inductive Op where
  | create (user : User) (writeOk : Bool)
  | update (user : User) (writeOk : Bool)
  | delete (id : String) (writeOk : Bool)
deriving DecidableEq, Repr

/-- Dispatch one operation against the store and the file. -/
def applyOp (s : JSONStore) (disk : Disk) : Op → OpResult
  | Op.create u ok => s.Create disk u ok
  | Op.update u ok => s.Update disk u ok
  | Op.delete i ok => s.Delete disk i ok

/-- Run a sequence of operations, keeping the state an errored call leaves
behind (the Go methods return errors but the receiver lives on). -/
def runOps (s : JSONStore) (disk : Disk) : List Op → JSONStore × Disk
  | [] => (s, disk)
  | op :: ops =>
    let r := applyOp s disk op
    runOps r.store r.disk ops

/-- Run a sequence of operations, requiring every one to succeed. -/
def runOpsOk (s : JSONStore) (disk : Disk) : List Op → Option (JSONStore × Disk)
  | [] => some (s, disk)
  | op :: ops =>
    let r := applyOp s disk op
    match r.err with
    | some _ => none
    | none => runOpsOk r.store r.disk ops

/-- The records stored in the snapshot file (empty when the file is missing
or zero bytes). -/
def diskRecords (disk : Disk) : List User :=
  match disk with
  | some (FileData.valid users) => users
  | _ => []

/-- The list represents a Go map keyed by id: no two entries share an id. -/
def UniqueIds (idx : List User) : Prop :=
  idx.Pairwise (fun a b => a.id ≠ b.id)

/-- No two entries share an email. -/
def UniqueEmails (idx : List User) : Prop :=
  idx.Pairwise (fun a b => a.email ≠ b.email)

instance (idx : List User) : Decidable (UniqueIds idx) :=
  List.instDecidablePairwise idx

instance (idx : List User) : Decidable (UniqueEmails idx) :=
  List.instDecidablePairwise idx

instance : DecidableEq (Except StoreError User) := fun a b =>
  match a, b with
  | Except.ok x, Except.ok y => decidable_of_iff (x = y) (by simp)
  | Except.error x, Except.error y => decidable_of_iff (x = y) (by simp)
  | Except.ok _, Except.error _ => isFalse (by simp)
  | Except.error _, Except.ok _ => isFalse (by simp)

/-- An operation that is a Create or an Update (not a Delete). -/
def Op.isCreateOrUpdate : Op → Bool
  | Op.create _ _ => true
  | Op.update _ _ => true
  | Op.delete _ _ => false

/-- A sample record used to instantiate concrete scenarios. -/
def uA : User := ⟨"id-1", "Alice", "a@x.com", 1, 1⟩

/-- A second sample record with a distinct id and email. -/
def uB : User := ⟨"id-2", "Bob", "b@x.com", 2, 2⟩

theorem hasId_eq_false_iff (idx : List User) (id : String) :
    hasId idx id = false ↔ ∀ u ∈ idx, u.id ≠ id := by
  simp [hasId]

theorem hasId_eq_true_iff (idx : List User) (id : String) :
    hasId idx id = true ↔ ∃ u ∈ idx, u.id = id := by
  simp [hasId]

theorem find_map_replace (t : List User) (u : User) (h : hasId t u.id = true) :
    (t.map (fun v => if v.id == u.id then u else v)).find?
      (fun w => w.id == u.id) = some u := by
  induction t with
  | nil => simp [hasId] at h
  | cons v t ih =>
    by_cases hv : v.id = u.id
    · simp [hv]
    · have hbeq : (v.id == u.id) = false := by simpa using hv
      have ht : hasId t u.id = true := by
        simp [hasId] at h ⊢
        rcases h with h | h
        · exact absurd h hv
        · exact h
      simp only [List.map_cons, hbeq, Bool.false_eq_true, if_false]
      rw [List.find?_cons_of_neg _ (by simp [hbeq])]
      exact ih ht

theorem find_append_self (t : List User) (u : User) (h : hasId t u.id = false) :
    (t ++ [u]).find? (fun w => w.id == u.id) = some u := by
  induction t with
  | nil => simp [List.find?]
  | cons v t ih =>
    have hv : v.id ≠ u.id := by
      simp [hasId] at h
      exact h.1
    have ht : hasId t u.id = false := by
      simp [hasId] at h ⊢
      exact h.2
    rw [List.cons_append, List.find?_cons_of_neg _ (by simpa using hv)]
    exact ih ht

theorem lookup_insert_self (idx : List User) (u : User) :
    idxLookup (idxInsert idx u) u.id = some u := by
  unfold idxInsert idxLookup
  split
  case isTrue h => exact find_map_replace idx u h
  case isFalse h => exact find_append_self idx u (by simpa using h)

theorem lookup_erase_self (idx : List User) (id : String) :
    idxLookup (idxErase idx id) id = none := by
  unfold idxErase idxLookup
  rw [List.find?_eq_none]
  intro x hx
  have := List.of_mem_filter hx
  simpa using this

theorem lookup_eq_none_iff (idx : List User) (id : String) :
    idxLookup idx id = none ↔ hasId idx id = false := by
  simp [idxLookup, hasId, List.find?_eq_none]

theorem uniqueIds_insert (idx : List User) (u : User) (h : UniqueIds idx) :
    UniqueIds (idxInsert idx u) := by
  unfold idxInsert
  split
  case isTrue hid =>
    rw [UniqueIds, List.pairwise_map]
    refine h.imp ?_
    intro a b hab
    by_cases ha : a.id = u.id
    · have hb : ¬ b.id = u.id := fun hb => hab (ha.trans hb.symm)
      simp [ha, hb]
      exact fun hbu => hb hbu.symm
    · by_cases hb : b.id = u.id
      · simp [ha, hb]
      · simpa [ha, hb] using hab
  case isFalse hid =>
    rw [UniqueIds, List.pairwise_append]
    refine ⟨h, List.pairwise_singleton _ _, ?_⟩
    intro a ha b hb
    have hb' : b = u := by simpa using hb
    rw [hb']
    exact (hasId_eq_false_iff idx u.id).1 (by simpa using hid) a ha

theorem uniqueEmails_insert (idx : List User) (u : User)
    (hids : UniqueIds idx) (hem : UniqueEmails idx)
    (hscan : ∀ v ∈ idx, v.id ≠ u.id → v.email ≠ u.email) :
    UniqueEmails (idxInsert idx u) := by
  unfold idxInsert
  split
  case isTrue hid =>
    clear hid
    rw [UniqueEmails, List.pairwise_map]
    rw [UniqueIds] at hids
    rw [UniqueEmails] at hem
    induction idx with
    | nil => exact List.Pairwise.nil
    | cons v t ih =>
      rcases List.pairwise_cons.1 hids with ⟨hvid, htid⟩
      rcases List.pairwise_cons.1 hem with ⟨hvem, htem⟩
      refine List.pairwise_cons.2 ⟨?_, ?_⟩
      · intro w hw
        by_cases hv : v.id = u.id
        · have hwne : w.id ≠ u.id := fun hwu => hvid w hw (hv.trans hwu.symm)
          have hwem : w.email ≠ u.email :=
            hscan w (List.mem_cons_of_mem v hw) hwne
          simp [hv, hwne]
          exact fun hx => hwem hx.symm
        · by_cases hwv : w.id = u.id
          · simp [hv, hwv]
            exact hscan v (List.mem_cons_self v t) hv
          · simpa [hv, hwv] using hvem w hw
      · exact ih htid htem (fun w hw => hscan w (List.mem_cons_of_mem v hw))
  case isFalse hid =>
    rw [UniqueEmails, List.pairwise_append]
    refine ⟨hem, List.pairwise_singleton _ _, ?_⟩
    intro a ha b hb
    have hb' : b = u := by simpa using hb
    rw [hb']
    exact hscan a ha
      ((hasId_eq_false_iff idx u.id).1 (by simpa using hid) a ha)

theorem buildIndex_uniqueIds_aux (us : List User) (acc : List User)
    (h : UniqueIds acc) :
    UniqueIds (us.foldl (fun idx u => idxInsert idx u) acc) := by
  induction us generalizing acc with
  | nil => exact h
  | cons u t ih => exact ih _ (uniqueIds_insert acc u h)

theorem buildIndex_uniqueIds (us : List User) : UniqueIds (buildIndex us) :=
  buildIndex_uniqueIds_aux us [] List.Pairwise.nil

theorem buildIndex_eq_self_aux (us : List User) (acc : List User)
    (h : UniqueIds (acc ++ us)) :
    us.foldl (fun idx u => idxInsert idx u) acc = acc ++ us := by
  induction us generalizing acc with
  | nil => simp
  | cons u t ih =>
    have hno : hasId acc u.id = false := by
      rw [hasId_eq_false_iff]
      intro a ha
      exact (List.pairwise_append.1 h).2.2 a ha u (List.mem_cons_self u t)
    have hins : idxInsert acc u = acc ++ [u] := by
      unfold idxInsert
      rw [hno]
      simp
    rw [List.foldl_cons, hins]
    have h' : UniqueIds ((acc ++ [u]) ++ t) := by
      rw [List.append_assoc]
      simpa using h
    rw [ih (acc ++ [u]) h']
    simp

theorem buildIndex_eq_self (us : List User) (h : UniqueIds us) :
    buildIndex us = us := by
  simpa using buildIndex_eq_self_aux us [] (by simpa using h)

theorem uniqueIds_erase (idx : List User) (id : String) (h : UniqueIds idx) :
    UniqueIds (idxErase idx id) :=
  List.Pairwise.filter _ h

theorem uniqueEmails_erase (idx : List User) (id : String) (h : UniqueEmails idx) :
    UniqueEmails (idxErase idx id) :=
  List.Pairwise.filter _ h

theorem create_conflict (s : JSONStore) (d : Disk) (u : User) (ok : Bool)
    (h : (s.users.any fun v => v.email == u.email) = true) :
    s.Create d u ok = ⟨some StoreError.alreadyExists, s, d⟩ := by
  simp [JSONStore.Create, h]

theorem create_success (s : JSONStore) (d : Disk) (u : User)
    (h : (s.users.any fun v => v.email == u.email) = false) :
    s.Create d u true =
      ⟨none, ⟨idxInsert s.users u⟩, some (FileData.valid (idxInsert s.users u))⟩ := by
  simp [JSONStore.Create, h, save]

theorem create_persist_fail (s : JSONStore) (d : Disk) (u : User)
    (h : (s.users.any fun v => v.email == u.email) = false) :
    s.Create d u false =
      ⟨some StoreError.persistenceError, ⟨idxInsert s.users u⟩, d⟩ := by
  simp [JSONStore.Create, h, save]

theorem update_notFound (s : JSONStore) (d : Disk) (u : User) (ok : Bool)
    (h : hasId s.users u.id = false) :
    s.Update d u ok = ⟨some StoreError.notFound, s, d⟩ := by
  simp [JSONStore.Update, h]

theorem update_conflict (s : JSONStore) (d : Disk) (u : User) (ok : Bool)
    (h1 : hasId s.users u.id = true)
    (h2 : (s.users.any fun v => v.email == u.email && v.id != u.id) = true) :
    s.Update d u ok = ⟨some StoreError.alreadyExists, s, d⟩ := by
  simp [JSONStore.Update, h1, h2]

theorem update_success (s : JSONStore) (d : Disk) (u : User)
    (h1 : hasId s.users u.id = true)
    (h2 : (s.users.any fun v => v.email == u.email && v.id != u.id) = false) :
    s.Update d u true =
      ⟨none, ⟨idxInsert s.users u⟩, some (FileData.valid (idxInsert s.users u))⟩ := by
  simp [JSONStore.Update, h1, h2, save]

theorem update_persist_fail (s : JSONStore) (d : Disk) (u : User)
    (h1 : hasId s.users u.id = true)
    (h2 : (s.users.any fun v => v.email == u.email && v.id != u.id) = false) :
    s.Update d u false =
      ⟨some StoreError.persistenceError, ⟨idxInsert s.users u⟩, d⟩ := by
  simp [JSONStore.Update, h1, h2, save]

theorem delete_notFound (s : JSONStore) (d : Disk) (i : String) (ok : Bool)
    (h : hasId s.users i = false) :
    s.Delete d i ok = ⟨some StoreError.notFound, s, d⟩ := by
  simp [JSONStore.Delete, h]

theorem delete_success (s : JSONStore) (d : Disk) (i : String)
    (h : hasId s.users i = true) :
    s.Delete d i true =
      ⟨none, ⟨idxErase s.users i⟩, some (FileData.valid (idxErase s.users i))⟩ := by
  simp [JSONStore.Delete, h, save]

theorem delete_persist_fail (s : JSONStore) (d : Disk) (i : String)
    (h : hasId s.users i = true) :
    s.Delete d i false =
      ⟨some StoreError.persistenceError, ⟨idxErase s.users i⟩, d⟩ := by
  simp [JSONStore.Delete, h, save]

theorem scan_create_sound (idx : List User) (u : User)
    (h : (idx.any fun v => v.email == u.email) = false) :
    ∀ v ∈ idx, v.id ≠ u.id → v.email ≠ u.email := by
  simp at h
  exact fun v hv _ => h v hv

theorem scan_update_sound (idx : List User) (u : User)
    (h : (idx.any fun v => v.email == u.email && v.id != u.id) = false) :
    ∀ v ∈ idx, v.id ≠ u.id → v.email ≠ u.email := by
  simp at h
  intro v hv hid hemail
  exact hid (h v hv hemail)

theorem applyOp_uniqueIds (s : JSONStore) (d : Disk) (op : Op)
    (hids : UniqueIds s.users) :
    UniqueIds (applyOp s d op).store.users := by
  cases op with
  | create u ok =>
    simp only [applyOp]
    cases hscan : (s.users.any fun v => v.email == u.email) with
    | true => rw [create_conflict s d u ok hscan]; exact hids
    | false =>
      cases ok with
      | true => rw [create_success s d u hscan]; exact uniqueIds_insert _ _ hids
      | false => rw [create_persist_fail s d u hscan]; exact uniqueIds_insert _ _ hids
  | update u ok =>
    simp only [applyOp]
    cases hhas : hasId s.users u.id with
    | false => rw [update_notFound s d u ok hhas]; exact hids
    | true =>
      cases hscan : (s.users.any fun v => v.email == u.email && v.id != u.id) with
      | true => rw [update_conflict s d u ok hhas hscan]; exact hids
      | false =>
        cases ok with
        | true => rw [update_success s d u hhas hscan]; exact uniqueIds_insert _ _ hids
        | false => rw [update_persist_fail s d u hhas hscan]; exact uniqueIds_insert _ _ hids
  | delete i ok =>
    simp only [applyOp]
    cases hhas : hasId s.users i with
    | false => rw [delete_notFound s d i ok hhas]; exact hids
    | true =>
      cases ok with
      | true => rw [delete_success s d i hhas]; exact uniqueIds_erase _ _ hids
      | false => rw [delete_persist_fail s d i hhas]; exact uniqueIds_erase _ _ hids

theorem applyOp_uniqueEmails (s : JSONStore) (d : Disk) (op : Op)
    (hids : UniqueIds s.users) (hem : UniqueEmails s.users) :
    UniqueEmails (applyOp s d op).store.users := by
  cases op with
  | create u ok =>
    simp only [applyOp]
    cases hscan : (s.users.any fun v => v.email == u.email) with
    | true => rw [create_conflict s d u ok hscan]; exact hem
    | false =>
      cases ok with
      | true =>
        rw [create_success s d u hscan]
        exact uniqueEmails_insert _ _ hids hem (scan_create_sound _ _ hscan)
      | false =>
        rw [create_persist_fail s d u hscan]
        exact uniqueEmails_insert _ _ hids hem (scan_create_sound _ _ hscan)
  | update u ok =>
    simp only [applyOp]
    cases hhas : hasId s.users u.id with
    | false => rw [update_notFound s d u ok hhas]; exact hem
    | true =>
      cases hscan : (s.users.any fun v => v.email == u.email && v.id != u.id) with
      | true => rw [update_conflict s d u ok hhas hscan]; exact hem
      | false =>
        cases ok with
        | true =>
          rw [update_success s d u hhas hscan]
          exact uniqueEmails_insert _ _ hids hem (scan_update_sound _ _ hscan)
        | false =>
          rw [update_persist_fail s d u hhas hscan]
          exact uniqueEmails_insert _ _ hids hem (scan_update_sound _ _ hscan)
  | delete i ok =>
    simp only [applyOp]
    cases hhas : hasId s.users i with
    | false => rw [delete_notFound s d i ok hhas]; exact hem
    | true =>
      cases ok with
      | true => rw [delete_success s d i hhas]; exact uniqueEmails_erase _ _ hem
      | false => rw [delete_persist_fail s d i hhas]; exact uniqueEmails_erase _ _ hem

theorem runOps_preserves_unique (ops : List Op) :
    ∀ (s : JSONStore) (d : Disk), UniqueIds s.users → UniqueEmails s.users →
      UniqueIds (runOps s d ops).1.users ∧ UniqueEmails (runOps s d ops).1.users := by
  induction ops with
  | nil => exact fun s d h1 h2 => ⟨h1, h2⟩
  | cons op t ih =>
    intro s d h1 h2
    have ha1 := applyOp_uniqueIds s d op h1
    have ha2 := applyOp_uniqueEmails s d op h1 h2
    simpa [runOps] using ih _ _ ha1 ha2

theorem applyOp_success_disk (s : JSONStore) (d : Disk) (op : Op)
    (h : (applyOp s d op).err = none) :
    (applyOp s d op).disk = some (FileData.valid (applyOp s d op).store.users) := by
  cases op with
  | create u ok =>
    simp only [applyOp] at h ⊢
    cases hscan : (s.users.any fun v => v.email == u.email) with
    | true => rw [create_conflict s d u ok hscan] at h; simp at h
    | false =>
      cases ok with
      | true => rw [create_success s d u hscan]
      | false => rw [create_persist_fail s d u hscan] at h; simp at h
  | update u ok =>
    simp only [applyOp] at h ⊢
    cases hhas : hasId s.users u.id with
    | false => rw [update_notFound s d u ok hhas] at h; simp at h
    | true =>
      cases hscan : (s.users.any fun v => v.email == u.email && v.id != u.id) with
      | true => rw [update_conflict s d u ok hhas hscan] at h; simp at h
      | false =>
        cases ok with
        | true => rw [update_success s d u hhas hscan]
        | false => rw [update_persist_fail s d u hhas hscan] at h; simp at h
  | delete i ok =>
    simp only [applyOp] at h ⊢
    cases hhas : hasId s.users i with
    | false => rw [delete_notFound s d i ok hhas] at h; simp at h
    | true =>
      cases ok with
      | true => rw [delete_success s d i hhas]
      | false => rw [delete_persist_fail s d i hhas] at h; simp at h

theorem newStore_uniqueIds (d : Disk) (s : JSONStore)
    (h : NewJSONStore d = some s) : UniqueIds s.users := by
  cases d with
  | none =>
    simp [NewJSONStore, load] at h
    rw [← h]
    exact List.Pairwise.nil
  | some fd =>
    cases fd with
    | emptyFile =>
      simp [NewJSONStore, load] at h
      rw [← h]
      exact List.Pairwise.nil
    | malformed => simp [NewJSONStore, load] at h
    | valid us =>
      simp [NewJSONStore, load] at h
      rw [← h]
      exact buildIndex_uniqueIds us

theorem newStore_reload (s1 : JSONStore) (h : UniqueIds s1.users) :
    NewJSONStore (some (FileData.valid s1.users)) = some s1 := by
  simp [NewJSONStore, load, buildIndex_eq_self _ h]

theorem uniqueEmails_inj (l : List User) (h : UniqueEmails l) :
    ∀ a ∈ l, ∀ b ∈ l, a.email = b.email → a = b := by
  induction l with
  | nil =>
    intro a ha
    simp at ha
  | cons w t ih =>
    rcases List.pairwise_cons.1 h with ⟨hw, ht⟩
    intro a ha b hb heq
    rcases List.mem_cons.1 ha with rfl | ha'
    · rcases List.mem_cons.1 hb with rfl | hb'
      · rfl
      · exact absurd heq (hw b hb')
    · rcases List.mem_cons.1 hb with rfl | hb'
      · exact absurd heq.symm (hw a ha')
      · exact ih ht a ha' b hb' heq

theorem runOpsOk_consistent (ops : List Op) :
    ∀ (s : JSONStore) (d : Disk) (s1 : JSONStore) (d1 : Disk),
      NewJSONStore d = some s → runOpsOk s d ops = some (s1, d1) →
      NewJSONStore d1 = some s1 := by
  induction ops with
  | nil =>
    intro s d s1 d1 hc hr
    simp [runOpsOk] at hr
    rw [← hr.1, ← hr.2]
    exact hc
  | cons op t ih =>
    intro s d s1 d1 hc hr
    simp only [runOpsOk] at hr
    cases herr : (applyOp s d op).err with
    | some e => rw [herr] at hr; simp at hr
    | none =>
      rw [herr] at hr
      refine ih _ _ _ _ ?_ hr
      have hd := applyOp_success_disk s d op herr
      have hu : UniqueIds (applyOp s d op).store.users :=
        applyOp_uniqueIds s d op (newStore_uniqueIds d s hc)
      rw [hd]
      exact newStore_reload _ hu

/-- Claim C1, counterexample: from an empty store whose file holds an empty
list, a Create whose disk write fails returns the persistence error, yet the
in-memory index now holds the new record (it is not rolled back to the empty
pre-call state) and a subsequent Get sees the record. -/
theorem claim_C1_counterexample :
    JSONStore.Create ⟨[]⟩ (some (FileData.valid [])) uA false
      = ⟨some StoreError.persistenceError, ⟨[uA]⟩, some (FileData.valid [])⟩
    ∧ ([uA] : List User) ≠ []
    ∧ JSONStore.GetByID ⟨[uA]⟩ "id-1" = Except.ok uA := by
  refine ⟨by decide, by decide, by decide⟩

/-- Claim C1 as amended: when the disk write fails, each mutating operation
(Create, Update, Delete) returns the persistence error, but the in-memory
index is not rolled back: it keeps the attempted mutation, which stays
visible to subsequent Get and List; only the on-disk file is unchanged. -/
theorem claim_C1_persist_failure_no_rollback (s : JSONStore) (d : Disk)
    (u : User) (i : String)
    (hc : (s.users.any fun v => v.email == u.email) = false)
    (hu1 : hasId s.users u.id = true)
    (hu2 : (s.users.any fun v => v.email == u.email && v.id != u.id) = false)
    (hd : hasId s.users i = true) :
    s.Create d u false
        = ⟨some StoreError.persistenceError, ⟨idxInsert s.users u⟩, d⟩
    ∧ s.Update d u false
        = ⟨some StoreError.persistenceError, ⟨idxInsert s.users u⟩, d⟩
    ∧ s.Delete d i false
        = ⟨some StoreError.persistenceError, ⟨idxErase s.users i⟩, d⟩
    ∧ JSONStore.GetByID ⟨idxInsert s.users u⟩ u.id = Except.ok u :=
  ⟨create_persist_fail s d u hc, update_persist_fail s d u hu1 hu2,
    delete_persist_fail s d i hd,
    by simp [JSONStore.GetByID, lookup_insert_self]⟩

/-- Witness for the amended C1: a concrete failed-persist Update leaves its
record visible. -/
theorem claim_C1_persist_failure_no_rollback_witness :
    JSONStore.Update ⟨[uA]⟩ none ⟨"id-1", "Alicia", "c@x.com", 1, 2⟩ false
      = ⟨some StoreError.persistenceError,
          ⟨[⟨"id-1", "Alicia", "c@x.com", 1, 2⟩]⟩, none⟩ :=
  (claim_C1_persist_failure_no_rollback ⟨[uA]⟩ none
    ⟨"id-1", "Alicia", "c@x.com", 1, 2⟩ "id-1"
    (by decide) (by decide) (by decide) (by decide)).2.1

/-- Claim C2: starting from a well-formed map state (pairwise-distinct ids,
as any Go map keyed by id has) with no duplicate emails, after any sequence
of Create/Update operations no two live records share an email; since this
holds for every such sequence, it holds at every intermediate point. -/
theorem claim_C2_email_uniqueness (s : JSONStore) (d : Disk) (ops : List Op)
    (hids : UniqueIds s.users) (hem : UniqueEmails s.users)
    (_hops : ∀ op ∈ ops, op.isCreateOrUpdate = true) :
    UniqueEmails (runOps s d ops).1.users :=
  (runOps_preserves_unique ops s d hids hem).2

/-- Witness for C2: a concrete Create/Update sequence keeps emails unique. -/
theorem claim_C2_email_uniqueness_witness :
    UniqueEmails (runOps ⟨[uA]⟩ (some (FileData.valid [uA]))
      [Op.create uB true, Op.update ⟨"id-2", "Bob", "c@x.com", 2, 3⟩ true]).1.users :=
  claim_C2_email_uniqueness ⟨[uA]⟩ (some (FileData.valid [uA])) _
    (by decide) (by decide) (by decide)

/-- Claim C3, counterexample: loading a snapshot file holding two records
with the same id succeeds, but the in-memory index keeps only the later
record, so the index and the file differ as sets of records. -/
theorem claim_C3_counterexample :
    NewJSONStore (some (FileData.valid [uA, ⟨"id-1", "Bob", "b@x.com", 2, 2⟩]))
      = some ⟨[⟨"id-1", "Bob", "b@x.com", 2, 2⟩]⟩
    ∧ uA ∈ diskRecords (some (FileData.valid [uA, ⟨"id-1", "Bob", "b@x.com", 2, 2⟩]))
    ∧ uA ∉ ([⟨"id-1", "Bob", "b@x.com", 2, 2⟩] : List User) := by
  refine ⟨by decide, by decide, by decide⟩

/-- Claim C3 as amended: immediately after any successful mutating operation
the file holds exactly the serialized in-memory index, so index and file
agree as sets of records; immediately after a successful load of a file
whose records have pairwise-distinct ids (as any file the store itself wrote
does), the index equals the file's record set; missing and zero-byte files
load to the empty index, which matches their empty record set. -/
theorem claim_C3_memory_disk_agreement (s : JSONStore) (d : Disk) (op : Op)
    (us : List User) (s' : JSONStore)
    (hop : (applyOp s d op).err = none)
    (hus : UniqueIds us)
    (hload : NewJSONStore (some (FileData.valid us)) = some s') :
    (diskRecords (applyOp s d op).disk).toFinset
        = (applyOp s d op).store.users.toFinset
    ∧ s'.users.toFinset = us.toFinset
    ∧ NewJSONStore none = some ⟨[]⟩
    ∧ NewJSONStore (some FileData.emptyFile) = some ⟨[]⟩ := by
  refine ⟨?_, ?_, rfl, rfl⟩
  · rw [applyOp_success_disk s d op hop]
    rfl
  · have hs' : s' = ⟨buildIndex us⟩ := by
      simp [NewJSONStore, load] at hload
      exact hload.symm
    rw [hs', buildIndex_eq_self us hus]

/-- Witness for the amended C3: a concrete successful Create writes the index
to disk, and reloading a distinct-id file reproduces its record set. -/
theorem claim_C3_memory_disk_agreement_witness :
    (diskRecords (applyOp ⟨[]⟩ none (Op.create uA true)).disk).toFinset
        = (applyOp ⟨[]⟩ none (Op.create uA true)).store.users.toFinset
    ∧ (JSONStore.users ⟨[uA, uB]⟩).toFinset = [uA, uB].toFinset
    ∧ NewJSONStore none = some ⟨[]⟩
    ∧ NewJSONStore (some FileData.emptyFile) = some ⟨[]⟩ :=
  claim_C3_memory_disk_agreement ⟨[]⟩ none (Op.create uA true) [uA, uB] ⟨[uA, uB]⟩
    (by decide) (by decide) (by decide)

/-- Claim C4: Create fails with AlreadyExists exactly when some live record
has an email string-equal (case-sensitive) to the new record's email; when no
such record exists and the persist succeeds, Create inserts the record and
succeeds. -/
theorem claim_C4_create_conflict_iff (s : JSONStore) (d : Disk) (u : User)
    (ok : Bool) :
    ((s.Create d u ok).err = some StoreError.alreadyExists
        ↔ ∃ v ∈ s.users, v.email = u.email)
    ∧ ((∀ v ∈ s.users, v.email ≠ u.email) →
        s.Create d u true
          = ⟨none, ⟨idxInsert s.users u⟩,
              some (FileData.valid (idxInsert s.users u))⟩) := by
  constructor
  · cases hscan : (s.users.any fun v => v.email == u.email) with
    | true =>
      rw [create_conflict s d u ok hscan]
      simp at hscan
      simpa using hscan
    | false =>
      have hno := by simpa using hscan
      cases ok with
      | true =>
        rw [create_success s d u hscan]
        simpa using hno
      | false =>
        rw [create_persist_fail s d u hscan]
        simpa using hno
  · intro hno
    have hscan : (s.users.any fun v => v.email == u.email) = false := by
      simpa using hno
    exact create_success s d u hscan

/-- Witness for C4: creating a record with a fresh email in a one-record
store succeeds and inserts it. -/
theorem claim_C4_create_conflict_iff_witness :
    JSONStore.Create ⟨[uA]⟩ (some (FileData.valid [uA])) uB true
      = ⟨none, ⟨[uA, uB]⟩, some (FileData.valid [uA, uB])⟩ :=
  (claim_C4_create_conflict_iff ⟨[uA]⟩ (some (FileData.valid [uA])) uB true).2
    (by decide)

/-- Claim C5, counterexample: when no record with the supplied id is live,
Update fails with NotFound even though a different live record holds the
supplied email, so "fails with AlreadyExists iff a different live record has
that email" is false as stated. -/
theorem claim_C5_counterexample :
    (JSONStore.Update ⟨[uA]⟩ none ⟨"id-2", "Bob", "a@x.com", 2, 2⟩ true).err
        = some StoreError.notFound
    ∧ (JSONStore.Update ⟨[uA]⟩ none ⟨"id-2", "Bob", "a@x.com", 2, 2⟩ true).err
        ≠ some StoreError.alreadyExists
    ∧ ([uA] : List User).any (fun v => v.email == "a@x.com" && v.id != "id-2")
        = true := by
  refine ⟨by decide, by decide, by decide⟩

/-- Claim C5 as amended: provided a record with the supplied id is live,
Update fails with AlreadyExists exactly when a different live record has an
equal email; and in a well-formed state with unique emails, every live
record may update to its own current email: that Update succeeds.  (When the
id is not live, Update fails with NotFound even under an email conflict.) -/
theorem claim_C5_update_conflict_iff (s : JSONStore) (d : Disk) (u : User)
    (ok : Bool) (u2 : User) (x : User)
    (hlive : hasId s.users u.id = true)
    (hem : UniqueEmails s.users)
    (hx : x ∈ s.users) (h2id : u2.id = x.id) (h2em : u2.email = x.email) :
    ((s.Update d u ok).err = some StoreError.alreadyExists
        ↔ ∃ v ∈ s.users, v.email = u.email ∧ v.id ≠ u.id)
    ∧ (s.Update d u2 true).err = none := by
  constructor
  · cases hscan : (s.users.any fun v => v.email == u.email && v.id != u.id) with
    | true =>
      rw [update_conflict s d u ok hlive hscan]
      simp at hscan
      simpa using hscan
    | false =>
      have hno := by simpa using hscan
      cases ok with
      | true =>
        rw [update_success s d u hlive hscan]
        simpa using hno
      | false =>
        rw [update_persist_fail s d u hlive hscan]
        simpa using hno
  · have hlive2 : hasId s.users u2.id = true :=
      (hasId_eq_true_iff s.users u2.id).2 ⟨x, hx, h2id.symm⟩
    have hscan2 : (s.users.any fun v => v.email == u2.email && v.id != u2.id)
        = false := by
      simp
      intro v hv hemail
      have hvx : v = x := uniqueEmails_inj s.users hem v hv x hx
        (by rw [hemail, h2em])
      rw [hvx, ← h2id]
    rw [update_success s d u2 hlive2 hscan2]

/-- Witness for the amended C5: in a one-record store the record updates to
its own email successfully, and an Update of that record to a fresh email
does not report AlreadyExists. -/
theorem claim_C5_update_conflict_iff_witness :
    ¬ ((JSONStore.Update ⟨[uA]⟩ none ⟨"id-1", "Al", "z@x.com", 1, 2⟩ true).err
        = some StoreError.alreadyExists)
    ∧ (JSONStore.Update ⟨[uA]⟩ none ⟨"id-1", "Al", "a@x.com", 1, 2⟩ true).err
        = none := by
  have h := claim_C5_update_conflict_iff ⟨[uA]⟩ none
    ⟨"id-1", "Al", "z@x.com", 1, 2⟩ true ⟨"id-1", "Al", "a@x.com", 1, 2⟩ uA
    (by decide) (by decide) (by decide) (by decide) (by decide)
  refine ⟨fun hc => ?_, h.2⟩
  have := h.1.1 hc
  rcases this with ⟨v, hv, hve, _⟩
  have : v = uA := by
    rcases List.mem_singleton.1 hv with rfl
    rfl
  rw [this] at hve
  exact absurd hve (by decide)

/-- Claim C6: a successful Update(r) replaces the stored record under r.id
with exactly the supplied record: the index holds the map-assignment of r,
and a subsequent Get(r.id) returns r verbatim — name, email, updated_at and
the caller-supplied created_at, which the store does not re-derive; hence
the created_at observed via Get after any chain of updates is the value
carried forward at each step. -/
theorem claim_C6_update_stores_verbatim (s : JSONStore) (d : Disk) (r : User)
    (ok : Bool)
    (hlive : hasId s.users r.id = true)
    (hok : (s.Update d r ok).err = none) :
    (s.Update d r ok).store.users = idxInsert s.users r
    ∧ JSONStore.GetByID (s.Update d r ok).store r.id = Except.ok r := by
  cases hscan : (s.users.any fun v => v.email == r.email && v.id != r.id) with
  | true =>
    rw [update_conflict s d r ok hlive hscan] at hok
    simp at hok
  | false =>
    cases ok with
    | false =>
      rw [update_persist_fail s d r hlive hscan] at hok
      simp at hok
    | true =>
      rw [update_success s d r hlive hscan]
      exact ⟨rfl, by simp [JSONStore.GetByID, lookup_insert_self]⟩

/-- Witness for C6: a concrete successful Update is read back verbatim,
created_at included. -/
theorem claim_C6_update_stores_verbatim_witness :
    JSONStore.GetByID
        (JSONStore.Update ⟨[uA]⟩ none ⟨"id-1", "Alice", "c@x.com", 1, 9⟩ true).store
        "id-1"
      = Except.ok ⟨"id-1", "Alice", "c@x.com", 1, 9⟩ :=
  (claim_C6_update_stores_verbatim ⟨[uA]⟩ none ⟨"id-1", "Alice", "c@x.com", 1, 9⟩
    true (by decide) (by decide)).2

/-- Claim C7: Get(id) right after a successful Create of a record with that
id returns the created record; Get(id) right after a successful Delete(id)
fails with NotFound; and Get(id) fails with NotFound exactly when no live
record has that id. -/
theorem claim_C7_get_create_delete (s : JSONStore) (d : Disk) (u : User)
    (i : String) (ok : Bool) (id2 : String)
    (hc : (s.Create d u ok).err = none)
    (hdel : (s.Delete d i ok).err = none) :
    JSONStore.GetByID (s.Create d u ok).store u.id = Except.ok u
    ∧ JSONStore.GetByID (s.Delete d i ok).store i
        = Except.error StoreError.notFound
    ∧ (JSONStore.GetByID s id2 = Except.error StoreError.notFound
        ↔ ∀ v ∈ s.users, v.id ≠ id2) := by
  refine ⟨?_, ?_, ?_⟩
  · cases hscan : (s.users.any fun v => v.email == u.email) with
    | true =>
      rw [create_conflict s d u ok hscan] at hc
      simp at hc
    | false =>
      cases ok with
      | false =>
        rw [create_persist_fail s d u hscan] at hc
        simp at hc
      | true =>
        rw [create_success s d u hscan]
        simp [JSONStore.GetByID, lookup_insert_self]
  · cases hhas : hasId s.users i with
    | false =>
      rw [delete_notFound s d i ok hhas] at hdel
      simp at hdel
    | true =>
      cases ok with
      | false =>
        rw [delete_persist_fail s d i hhas] at hdel
        simp at hdel
      | true =>
        rw [delete_success s d i hhas]
        simp [JSONStore.GetByID, lookup_erase_self]
  · rw [← hasId_eq_false_iff, ← lookup_eq_none_iff]
    cases hl : idxLookup s.users id2 with
    | some v => simp [JSONStore.GetByID, hl]
    | none => simp [JSONStore.GetByID, hl]

/-- Witness for C7: a concrete Create is readable back, a concrete Delete
makes its id unfindable, and lookups in a one-record store miss unknown
ids. -/
theorem claim_C7_get_create_delete_witness :
    JSONStore.GetByID (JSONStore.Create ⟨[uA]⟩ none uB true).store "id-2"
        = Except.ok uB
    ∧ JSONStore.GetByID (JSONStore.Delete ⟨[uA]⟩ none "id-1" true).store "id-1"
        = Except.error StoreError.notFound :=
  ⟨(claim_C7_get_create_delete ⟨[uA]⟩ none uB "id-1" true "id-9"
      (by decide) (by decide)).1,
    (claim_C7_get_create_delete ⟨[uA]⟩ none uB "id-1" true "id-9"
      (by decide) (by decide)).2.1⟩

/-- Claim C8: a missing snapshot file yields a store with an empty index, a
zero-byte file likewise, non-empty content that does not parse as a record
list makes initialization fail with no store produced, and a fresh store
over an empty or missing file lists no users and reports no error. -/
theorem claim_C8_init_semantics :
    NewJSONStore none = some ⟨[]⟩
    ∧ NewJSONStore (some FileData.emptyFile) = some ⟨[]⟩
    ∧ NewJSONStore (some FileData.malformed) = none
    ∧ JSONStore.GetAll ⟨[]⟩ = [] := by
  refine ⟨rfl, rfl, rfl, rfl⟩

/-- Claim C9: the persistence round-trip.  Construct a store over any file
state, run any sequence of wholly successful Create/Update/Delete
operations, then construct a fresh store over the resulting file: its index
equals the prior instance's final index as a set of records (here even as a
list). -/
theorem claim_C9_persistence_roundtrip (d0 : Disk) (s0 s1 s2 : JSONStore)
    (d1 : Disk) (ops : List Op)
    (h0 : NewJSONStore d0 = some s0)
    (hrun : runOpsOk s0 d0 ops = some (s1, d1))
    (h2 : NewJSONStore d1 = some s2) :
    s2.users.toFinset = s1.users.toFinset := by
  have hc := runOpsOk_consistent ops s0 d0 s1 d1 h0 hrun
  rw [hc] at h2
  have : s1 = s2 := by injection h2
  rw [this]

/-- Witness for C9: create then update against a missing file, reload, and
get the same single-record set back. -/
theorem claim_C9_persistence_roundtrip_witness :
    (JSONStore.users ⟨[⟨"id-1", "Al", "c@x.com", 1, 2⟩]⟩).toFinset
      = (JSONStore.users ⟨[⟨"id-1", "Al", "c@x.com", 1, 2⟩]⟩).toFinset :=
  claim_C9_persistence_roundtrip none ⟨[]⟩ ⟨[⟨"id-1", "Al", "c@x.com", 1, 2⟩]⟩
    ⟨[⟨"id-1", "Al", "c@x.com", 1, 2⟩]⟩
    (some (FileData.valid [⟨"id-1", "Al", "c@x.com", 1, 2⟩]))
    [Op.create uA true, Op.update ⟨"id-1", "Al", "c@x.com", 1, 2⟩ true]
    (by decide) (by decide) (by decide)

/-- Claim C10: Create checks no id uniqueness.  If a record u0 is live and a
new record carries u0's id but an email no live record holds, Create
succeeds and silently replaces u0 (the old record is gone, with no error);
if the new record carries u0's id together with u0's own current email,
Create fails with AlreadyExists, because the email scan includes the record
being replaced; and Create only ever fails with AlreadyExists or the
persistence error — never NotFound, and no duplicate-id error exists. -/
theorem claim_C10_create_id_overwrite (s : JSONStore) (d : Disk)
    (u0 u u2 u3 : User) (ok : Bool) (e : StoreError)
    (h0 : u0 ∈ s.users)
    (hid : u.id = u0.id)
    (hfresh : ∀ v ∈ s.users, v.email ≠ u.email)
    (h2email : u2.email = u0.email) :
    (s.Create d u true).err = none
    ∧ JSONStore.GetByID (s.Create d u true).store u.id = Except.ok u
    ∧ (u ≠ u0 → u0 ∉ (s.Create d u true).store.users)
    ∧ (s.Create d u2 ok).err = some StoreError.alreadyExists
    ∧ ((s.Create d u3 ok).err = some e →
        e = StoreError.alreadyExists ∨ e = StoreError.persistenceError) := by
  have hscan : (s.users.any fun v => v.email == u.email) = false := by
    simpa using hfresh
  have hhas : hasId s.users u.id = true :=
    (hasId_eq_true_iff s.users u.id).2 ⟨u0, h0, hid.symm⟩
  refine ⟨?_, ?_, ?_, ?_, ?_⟩
  · rw [create_success s d u hscan]
  · rw [create_success s d u hscan]
    simp [JSONStore.GetByID, lookup_insert_self]
  · intro hne hmem
    rw [create_success s d u hscan] at hmem
    simp only [idxInsert, hhas, if_true] at hmem
    rcases List.mem_map.1 hmem with ⟨w, hw, hfw⟩
    by_cases hwid : w.id = u.id
    · rw [if_pos (by simpa using hwid)] at hfw
      exact hne hfw
    · rw [if_neg (by simpa using hwid)] at hfw
      rw [hfw] at hwid
      exact hwid hid.symm
  · have hscan2 : (s.users.any fun v => v.email == u2.email) = true := by
      simp
      exact ⟨u0, h0, h2email.symm⟩
    rw [create_conflict s d u2 ok hscan2]
  · intro he
    cases hscan3 : (s.users.any fun v => v.email == u3.email) with
    | true =>
      rw [create_conflict s d u3 ok hscan3] at he
      left
      injection he with he
      exact he.symm
    | false =>
      cases ok with
      | true =>
        rw [create_success s d u3 hscan3] at he
        simp at he
      | false =>
        rw [create_persist_fail s d u3 hscan3] at he
        right
        injection he with he
        exact he.symm

/-- Witness for C10: against a one-record store, a Create reusing the id with
a fresh email succeeds and drops the old record, while a Create reusing the
id with the old record's own email reports AlreadyExists. -/
theorem claim_C10_create_id_overwrite_witness :
    (JSONStore.Create ⟨[uA]⟩ none ⟨"id-1", "Eve", "e@x.com", 7, 7⟩ true).err = none
    ∧ uA ∉ (JSONStore.Create ⟨[uA]⟩ none
        ⟨"id-1", "Eve", "e@x.com", 7, 7⟩ true).store.users
    ∧ (JSONStore.Create ⟨[uA]⟩ none ⟨"id-9", "Zed", "a@x.com", 8, 8⟩ true).err
        = some StoreError.alreadyExists := by
  have h := claim_C10_create_id_overwrite ⟨[uA]⟩ none uA
    ⟨"id-1", "Eve", "e@x.com", 7, 7⟩ ⟨"id-9", "Zed", "a@x.com", 8, 8⟩
    ⟨"id-1", "Eve", "e@x.com", 7, 7⟩ true StoreError.alreadyExists
    (by decide) (by decide) (by decide) (by decide)
  exact ⟨h.1, h.2.2.1 (by decide), h.2.2.2.1⟩

end UserStore
